import Mathlib

/-!
Shallow embedding of the fail package, a panic/recover based failure helper
for Go tests.  Two source files are embedded: the current fail.go and the
earlier revision of the package kept in the repository (its Using has no
deferred-failure queue and its condition check is named IfNot).

Go strings are modelled as lists of characters, the panic/recover control
flow as Option-valued results, and the process-wide failing flag and queue
as an explicit state record threaded through each operation.  The stack
captured by debug.Stack is a parameter: a list of frame lines, one per
line of the raw trace.
-/

namespace Fail

/-- Go strings, modelled as lists of characters. -/
abbrev Str := List Char

/-- Embed a Lean string literal as a Go string. -/
def str (s : String) : Str := s.toList

/-- Go strings.Contains: sub occurs as a contiguous segment of s. -/
def goContains (s sub : Str) : Bool := decide (sub <:+: s)

/-- Go strings.HasPrefix. -/
def goStartsWith (s p : Str) : Bool := p.isPrefixOf s

/-- Go strings.HasSuffix. -/
def goEndsWith (s p : Str) : Bool := p.isSuffixOf s

/-- Whitespace recognised by strings.TrimSpace (ASCII part). -/
def isSpaceChar (c : Char) : Bool :=
  c == ' ' || c == '\t' || c == '\n' || c == '\r' || c == '\x0b' || c == '\x0c'

/-- Go strings.TrimSpace, restricted to ASCII whitespace. -/
def goTrimSpace (s : Str) : Str :=
  ((s.dropWhile isSpaceChar).reverse.dropWhile isSpaceChar).reverse

/-- Go strings.LastIndex: index of the last occurrence of sub inside s,
none when sub does not occur. -/
def goLastIndex (s sub : Str) : Option Nat :=
  ((List.range (s.length + 1)).filter (fun i => sub.isPrefixOf (List.drop i s))).getLast?

/-- Go strings.Join. -/
def goJoin (xs : List Str) (sep : Str) : Str := List.intercalate sep xs

/-- The line separator used when joining and splitting traces. -/
def nlStr : Str := str "\n"

/-- The package import path produced by reflect (fail.go line 91). -/
def pkgPath : Str := str "github.com/sridharv/fail"

/-- The test-runner boundary marker checked at fail.go line 49. -/
def runnerMark : Str := str "testing.tRunner"

/-- fail.go lines 31-41: drop a trailing parenthesized argument list from a
function line, or a trailing hexadecimal offset from a location line. -/
def clean (l : Str) : Str :=
  if goEndsWith l (str ")") && (goLastIndex l (str "(")).isSome then
    List.take ((goLastIndex l (str "(")).getD 0) l
  else
    match goLastIndex l (str " +0x") with
    | some i => List.take i l
    | none => l

/-- Loop state of one squash pass: the accumulator seeded with one empty
line, the found and include flags, and the strippedPath flag. -/
structure SqState where
  squashed : List Str
  found : Bool
  incl : Bool
  stripped : Bool
deriving DecidableEq, Repr

/-- One iteration of the loop body of squash (fail.go lines 46-57). -/
def squashStep (st : SqState) (part : Str) : SqState :=
  let st1 : SqState :=
    if goContains part pkgPath then
      ⟨st.squashed, true, st.incl, true⟩
    else if goStartsWith (goTrimSpace part) runnerMark then
      ⟨st.squashed, false, false, st.stripped⟩
    else if st.found then
      ⟨st.squashed, st.found, true, st.stripped⟩
    else st
  if st1.incl then ⟨st1.squashed ++ [clean part], st1.found, st1.incl, st1.stripped⟩ else st1

/-- fail.go lines 43-62: one pass of trace reduction.  Returns the input
unchanged together with false when no line mentioned the package path. -/
def squash (trace : List Str) : List Str × Bool :=
  let st := List.foldl squashStep ⟨[[]], false, false, false⟩ trace
  if st.stripped then (st.squashed, true) else (trace, false)

/-- The squash loop of Using (fail.go lines 74-77): with fuel n, apply
squash and keep going while it reports that it stripped something. -/
def squashIter : Nat → List Str → List Str
  | 0, t => t
  | n + 1, t => if (squash t).2 then squashIter n (squash t).1 else (squash t).1

/-- Number of squash applications performed by squashIter with fuel n. -/
def squashCount : Nat → List Str → Nat
  | 0, _ => 0
  | n + 1, t => if (squash t).2 then squashCount n (squash t).1 + 1 else 1

/-- The full reduction run by Using: one initial pass plus up to three
repeats, stopping early when a pass strips nothing. -/
def reduceTrace (t : List Str) : List Str := squashIter 4 t

/-- Reporting values carried by a failure: error values or strings. -/
inductive Val where
  | verr (msg : Str)
  | vstr (s : Str)
deriving DecidableEq, Repr

/-- The failure signal (fail.go line 87): a list of reporting values. -/
abbrev failure := List Val

/-- Default fmt rendering of one reporting value: an error renders as its
message, a string as itself. -/
def render : Val → Str
  | Val.verr m => m
  | Val.vstr s => s

/-- fmt.Sprintln: operands separated by single spaces, newline appended. -/
def sprintln (xs : List Val) : Str :=
  goJoin (xs.map render) (str " ") ++ str "\n"

/-- A value travelling up the stack as a panic: the package failure signal
or any foreign value. -/
inductive PanicVal where
  | fail (f : failure)
  | foreign (v : Val)
deriving DecidableEq, Repr

/-- The process-wide failure state (fail.go lines 141-142). -/
structure FState where
  failing : Bool
  queue : List Val
deriving DecidableEq, Repr

/-- What a run of Using does: return silently, invoke the reporter with an
argument list, or rethrow a panic value. -/
inductive UsingResult where
  | ret : UsingResult
  | report (args : List Val) : UsingResult
  | rethrow (v : PanicVal) : UsingResult
deriving DecidableEq, Repr

/-- fail.go lines 66-85: the recovery guard.  The recovered value is the
first argument (none models a recover that returned nil), the raw stack
lines are the split of debug.Stack output. -/
def Using (r : Option PanicVal) (stack : List Str) (s : FState) : UsingResult × FState :=
  match r with
  | none => (UsingResult.ret, s)
  | some (PanicVal.fail f) =>
      (UsingResult.report (f ++ [Val.vstr (goJoin (reduceTrace stack) nlStr)] ++ s.queue),
        ⟨false, []⟩)
  | some (PanicVal.foreign v) => (UsingResult.rethrow (PanicVal.foreign v), s)

/-- fail.go lines 144-151: throw the failure into a narrow local guard and
append the recovered value, formatted, to the queue. -/
def enqueue (f : failure) (s : FState) : FState :=
  ⟨s.failing, s.queue ++ [Val.vstr (goJoin [[], str "Failure on defer: " ++ sprintln f] nlStr)]⟩

/-- The note string enqueue appends for a secondary failure. -/
def mkNote (f : failure) : Str :=
  goJoin [[], str "Failure on defer: " ++ sprintln f] nlStr

/-- fail.go lines 154-157: mark the failing flag and build the signal. -/
def Message (args : List Val) (s : FState) : failure × FState :=
  (args, ⟨true, s.queue⟩)

/-- fail.go lines 162-167: throw the signal when not already failing,
otherwise degrade it into a queued note. -/
def Now (args : List Val) (s : FState) : Option PanicVal × FState :=
  if !s.failing then
    (some (PanicVal.fail (Message args s).1), (Message args s).2)
  else
    (none, enqueue (Message args s).1 (Message args s).2)

/-- fail.go lines 111-115: raise when the error is non-nil, prepending it
to the reporting values. -/
def IfErr (e : Option Str) (args : List Val) (s : FState) : Option PanicVal × FState :=
  match e with
  | none => (none, s)
  | some m => Now (Val.verr m :: args) s

/-- fail.go lines 135-139: raise when the condition is true. -/
def If (condition : Bool) (args : List Val) (s : FState) : Option PanicVal × FState :=
  if condition then Now args s else (none, s)

/-- Earlier revision, lines 56-60: raise when the condition is false. -/
def IfNot (condition : Bool) (args : List Val) : Option PanicVal :=
  if !condition then some (PanicVal.fail args) else none

/-- Loop state of the inline squash loop of the earlier revision. -/
structure Sq0State where
  squashed : List Str
  found : Bool
  incl : Bool
deriving DecidableEq, Repr

/-- Earlier revision, lines 20-31: one iteration of the inline loop. -/
def squash0Step (st : Sq0State) (part : Str) : Sq0State :=
  let st1 : Sq0State :=
    if goContains part pkgPath then ⟨st.squashed, true, st.incl⟩
    else if goStartsWith (goTrimSpace part) runnerMark then ⟨st.squashed, false, false⟩
    else if st.found then ⟨st.squashed, st.found, true⟩
    else st
  if st1.incl then ⟨st1.squashed ++ [part], st1.found, st1.incl⟩ else st1

/-- Earlier revision: the single squash pass inlined in its Using. -/
def squash0 (stack : List Str) : List Str :=
  (List.foldl squash0Step ⟨[[]], false, false⟩ stack).squashed

/-- Earlier revision, lines 10-36: the recovery guard; no state, no queue,
one squash pass. -/
def Using0 (r : Option PanicVal) (stack : List Str) : UsingResult :=
  match r with
  | none => UsingResult.ret
  | some (PanicVal.fail f) =>
      UsingResult.report (f ++ [Val.vstr (goJoin (squash0 stack) nlStr)])
  | some (PanicVal.foreign v) => UsingResult.rethrow (PanicVal.foreign v)

/-- Run a body under a deferred Using guard: whatever the body throws is
what Using recovers. -/
def runGuarded (body : FState → Option PanicVal × FState) (stack : List Str) (s : FState) :
    UsingResult × FState :=
  Using (body s).1 stack (body s).2

/-- One observable step of the package API on the process-wide state. -/
inductive Step : FState → FState → Prop where
  | message (args : List Val) (s : FState) : Step s (Message args s).2
  | now (args : List Val) (s : FState) : Step s (Now args s).2
  | usingStep (r : Option PanicVal) (stack : List Str) (s : FState) :
      Step s (Using r stack s).2

/-- States reachable from the initial state through the package API. -/
def Reachable (s : FState) : Prop :=
  Relation.ReflTransGen Step ⟨false, []⟩ s

end Fail

namespace Fail

/-- A line containing the package path sets found and stripped and is not
accumulated when include was off. -/
theorem step_internal (sq : List Str) (f0 p0 : Bool) (part : Str)
    (h : goContains part pkgPath = true) :
    squashStep ⟨sq, f0, false, p0⟩ part = ⟨sq, true, false, true⟩ := by
  simp [squashStep, h]

/-- A user line seen after an internal frame turns include on and is
accumulated after cleaning. -/
theorem step_user (sq : List Str) (i0 p0 : Bool) (part : Str)
    (h1 : goContains part pkgPath = false)
    (h2 : goStartsWith (goTrimSpace part) runnerMark = false) :
    squashStep ⟨sq, true, i0, p0⟩ part = ⟨sq ++ [clean part], true, true, p0⟩ := by
  simp [squashStep, h1, h2]

/-- The runner boundary line turns include and found off and is dropped. -/
theorem step_runner (sq : List Str) (f0 i0 p0 : Bool) (part : Str)
    (h1 : goContains part pkgPath = false)
    (h2 : goStartsWith (goTrimSpace part) runnerMark = true) :
    squashStep ⟨sq, f0, i0, p0⟩ part = ⟨sq, false, false, p0⟩ := by
  simp [squashStep, h1, h2]

/-- A line that does not mention the package path leaves stripped as is. -/
theorem step_stripped (st : SqState) (part : Str)
    (h : goContains part pkgPath = false) :
    (squashStep st part).stripped = st.stripped := by
  obtain ⟨sq, f0, i0, p0⟩ := st
  simp only [squashStep, h, Bool.false_eq_true, if_false]
  split
  · split <;> rfl
  · split
    · split <;> rfl
    · split <;> rfl

/-- Folding over lines free of the package path never sets stripped. -/
theorem foldl_stripped : ∀ (ts : List Str) (st : SqState),
    (∀ l ∈ ts, goContains l pkgPath = false) →
    (List.foldl squashStep st ts).stripped = st.stripped := by
  intro ts
  induction ts with
  | nil => intro st h; rfl
  | cons l ls ih =>
    intro st h
    simp only [List.foldl_cons]
    rw [ih _ (fun x hx => h x (List.mem_cons_of_mem _ hx))]
    exact step_stripped st l (h l (List.mem_cons_self _ _))

/-- On a trace with no line mentioning the package path, one squash pass
returns its input unchanged and reports false. -/
theorem squash_id (t : List Str) (h : ∀ l ∈ t, goContains l pkgPath = false) :
    squash t = (t, false) := by
  have hs : (List.foldl squashStep ⟨[[]], false, false, false⟩ t).stripped = false :=
    foldl_stripped t _ h
  simp [squash, hs]

/-- When a pass strips something, the loop continues on its output. -/
theorem squashIter_step (n : Nat) (t u : List Str) (h : squash t = (u, true)) :
    squashIter (n + 1) t = squashIter n u := by
  have e : squashIter (n + 1) t
      = if (squash t).2 then squashIter n (squash t).1 else (squash t).1 := rfl
  rw [e, h]
  simp

/-- When a pass returns its input with false, the loop stops there. -/
theorem squashIter_stop (n : Nat) (t : List Str) (h : squash t = (t, false)) :
    squashIter (n + 1) t = t := by
  have e : squashIter (n + 1) t
      = if (squash t).2 then squashIter n (squash t).1 else (squash t).1 := rfl
  rw [e, h]
  simp

/-- The loop never applies squash more often than its fuel allows. -/
theorem squashCount_le : ∀ (n : Nat) (t : List Str), squashCount n t ≤ n := by
  intro n
  induction n with
  | zero => intro t; exact Nat.le_refl 0
  | succ m ih =>
    intro t
    unfold squashCount
    split
    · exact Nat.succ_le_succ (ih _)
    · omega

/-- With positive fuel the loop applies squash at least once. -/
theorem squashCount_pos (n : Nat) (t : List Str) : 1 ≤ squashCount (n + 1) t := by
  unfold squashCount
  split <;> omega

/-- Prefixes keep the absence of a segment. -/
theorem contains_take (l sub : Str) (k : Nat) (h : goContains l sub = false) :
    goContains (List.take k l) sub = false := by
  simp only [goContains, decide_eq_false_iff_not] at h ⊢
  intro hc
  obtain ⟨s1, t1, ht⟩ := hc
  refine h ⟨s1, t1 ++ List.drop k l, ?_⟩
  calc s1 ++ sub ++ (t1 ++ List.drop k l) = (s1 ++ sub ++ t1) ++ List.drop k l := by
        simp [List.append_assoc]
    _ = List.take k l ++ List.drop k l := by rw [ht]
    _ = l := List.take_append_drop k l

/-- Cleaning a line keeps the absence of the package path. -/
theorem clean_contains (l sub : Str) (h : goContains l sub = false) :
    goContains (clean l) sub = false := by
  unfold clean
  split
  · exact contains_take l sub _ h
  · split
    · exact contains_take l sub _ h
    · exact h

end Fail

namespace Fail

/-- Folding a nonempty block of internal frames from a state with include
off leaves the accumulator alone and sets found and stripped. -/
theorem foldl_internal : ∀ (ts : List Str) (sq : List Str) (f0 p0 : Bool),
    (∀ l ∈ ts, goContains l pkgPath = true) → ts ≠ [] →
    List.foldl squashStep ⟨sq, f0, false, p0⟩ ts = ⟨sq, true, false, true⟩ := by
  intro ts
  induction ts with
  | nil => intro sq f0 p0 h hne; exact absurd rfl hne
  | cons l ls ih =>
    intro sq f0 p0 h hne
    simp only [List.foldl_cons]
    rw [step_internal sq f0 p0 l (h l (List.mem_cons_self _ _))]
    cases ls with
    | nil => rfl
    | cons a as =>
      exact ih sq true true (fun x hx => h x (List.mem_cons_of_mem _ hx)) (by simp)

/-- Folding a block of user frames from a state with found on appends the
cleaned lines in order. -/
theorem foldl_user : ∀ (ts : List Str) (sq : List Str) (i0 : Bool),
    (∀ l ∈ ts, goContains l pkgPath = false
      ∧ goStartsWith (goTrimSpace l) runnerMark = false) →
    ∃ b, List.foldl squashStep ⟨sq, true, i0, true⟩ ts
      = ⟨sq ++ List.map clean ts, true, b, true⟩ := by
  intro ts
  induction ts with
  | nil => intro sq i0 h; exact ⟨i0, by simp⟩
  | cons l ls ih =>
    intro sq i0 h
    simp only [List.foldl_cons]
    rw [step_user sq i0 true l (h l (List.mem_cons_self _ _)).1
      (h l (List.mem_cons_self _ _)).2]
    obtain ⟨b, hb⟩ := ih (sq ++ [clean l]) true (fun x hx => h x (List.mem_cons_of_mem _ hx))
    refine ⟨b, ?_⟩
    rw [hb]
    simp [List.append_assoc]

/-- One pass on a trace of internal frames, then user frames, then the
runner boundary: the output is one empty seed line followed by the cleaned
user frames, and the pass reports that it stripped something. -/
theorem squash_structured (internals users : List Str) (r : Str)
    (h1 : internals ≠ [])
    (hint : ∀ l ∈ internals, goContains l pkgPath = true)
    (huser : ∀ l ∈ users, goContains l pkgPath = false
      ∧ goStartsWith (goTrimSpace l) runnerMark = false)
    (hr1 : goContains r pkgPath = false)
    (hr2 : goStartsWith (goTrimSpace r) runnerMark = true) :
    squash (internals ++ users ++ [r]) = ([] :: List.map clean users, true) := by
  simp only [squash, List.foldl_append]
  rw [foldl_internal internals [[]] false false hint h1]
  obtain ⟨b, hb⟩ := foldl_user users [[]] false huser
  rw [hb]
  simp only [List.foldl_cons, List.foldl_nil]
  rw [step_runner ([[]] ++ List.map clean users) true b true r hr1 hr2]
  simp

/-- The empty seed line contains no package path. -/
theorem nil_contains : goContains [] pkgPath = false := by decide

/-- The full reduction of a structured trace: the first pass produces the
seed line plus the cleaned user frames, the second pass strips nothing and
stops the loop. -/
theorem reduce_structured (internals users : List Str) (r : Str)
    (h1 : internals ≠ [])
    (hint : ∀ l ∈ internals, goContains l pkgPath = true)
    (huser : ∀ l ∈ users, goContains l pkgPath = false
      ∧ goStartsWith (goTrimSpace l) runnerMark = false)
    (hr1 : goContains r pkgPath = false)
    (hr2 : goStartsWith (goTrimSpace r) runnerMark = true) :
    reduceTrace (internals ++ users ++ [r]) = [] :: List.map clean users := by
  have hp := squash_structured internals users r h1 hint huser hr1 hr2
  have hall : ∀ l ∈ ([] :: List.map clean users), goContains l pkgPath = false := by
    intro x hx
    rcases List.mem_cons.mp hx with hx0 | hx1
    · rw [hx0]; exact nil_contains
    · obtain ⟨u, hu, hux⟩ := List.mem_map.mp hx1
      rw [← hux]
      exact clean_contains u pkgPath (huser u hu).1
  have hs2 : squash ([] :: List.map clean users) = ([] :: List.map clean users, false) :=
    squash_id _ hall
  show squashIter 4 (internals ++ users ++ [r]) = [] :: List.map clean users
  have e1 : squashIter 4 (internals ++ users ++ [r])
      = squashIter 3 ([] :: List.map clean users) :=
    squashIter_step 3 _ _ hp
  rw [e1]
  exact squashIter_stop 2 _ hs2

end Fail

namespace Fail

/-- Claim C1: for every non-nil error passed to IfErr while no failure is
unwinding and with Using installed as the deferred guard, the reporter is
invoked with that error as the first element of its argument list. -/
theorem claim_C1 (e : Str) (args : List Val) (stack : List Str) (s : FState)
    (h : s.failing = false) :
    (runGuarded (IfErr (some e) args) stack s).1
      = UsingResult.report
          (Val.verr e :: (args ++ [Val.vstr (goJoin (reduceTrace stack) nlStr)] ++ s.queue)) := by
  simp [runGuarded, IfErr, Now, h, Message, Using]

/-- Witness for claim C1 at a concrete error, stack and state. -/
theorem claim_C1_witness :
    (runGuarded (IfErr (some (str "boom")) []) [] ⟨false, []⟩).1
      = UsingResult.report
          (Val.verr (str "boom") :: ([] ++ [Val.vstr (goJoin (reduceTrace []) nlStr)] ++ [])) :=
  claim_C1 (str "boom") [] [] ⟨false, []⟩ rfl

/-- Claim C2, counterexample to the stated note format: the queued note for
a secondary failure carries a leading newline, so it is not the string
made of the marker followed by the rendered arguments. -/
theorem claim_C2_counterexample :
    (Now [Val.vstr (str "second")] ⟨true, []⟩).1 = none
    ∧ (Now [Val.vstr (str "second")] ⟨true, []⟩).2.queue
        = [Val.vstr (str "\nFailure on defer: second\n")]
    ∧ (Now [Val.vstr (str "second")] ⟨true, []⟩).2.queue
        ≠ [Val.vstr (str "Failure on defer: second\n")]
    ∧ (Now [Val.vstr (str "second")] ⟨true, []⟩).2.queue
        ≠ [Val.vstr (str "Failure on defer: second")] := by
  decide

/-- Claim C2 as amended: a raise while already failing never escapes to the
caller; the queue gets one note equal to a newline, the marker, and the
space-separated rendering of the arguments with a trailing newline. -/
theorem claim_C2_amended (args : List Val) (s : FState) (h : s.failing = true) :
    Now args s = (none, ⟨true, s.queue ++ [Val.vstr (mkNote args)]⟩) := by
  simp [Now, h, Message, enqueue, mkNote]

/-- Witness for the amended claim C2 at concrete arguments and state. -/
theorem claim_C2_witness :
    Now [Val.vstr (str "deferboom")] ⟨true, [Val.vstr (str "q0")]⟩
      = (none, ⟨true, [Val.vstr (str "q0")] ++ [Val.vstr (mkNote [Val.vstr (str "deferboom")])]⟩) :=
  claim_C2_amended [Val.vstr (str "deferboom")] ⟨true, [Val.vstr (str "q0")]⟩ rfl

/-- Claim C3, counterexample to the exact output: the reduced trace of a
structured raw trace starts with an extra empty line before the cleaned
user frames. -/
theorem claim_C3_counterexample :
    reduceTrace [str "github.com/sridharv/fail.Now(0x1)", str "main.TestFoo(0x2)",
        str "\t/go/main_test.go:10 +0x45", str "testing.tRunner(0x3)"]
      = [[], str "main.TestFoo", str "\t/go/main_test.go:10"]
    ∧ reduceTrace [str "github.com/sridharv/fail.Now(0x1)", str "main.TestFoo(0x2)",
        str "\t/go/main_test.go:10 +0x45", str "testing.tRunner(0x3)"]
      ≠ [str "main.TestFoo", str "\t/go/main_test.go:10"] := by
  decide

/-- Claim C3 as amended: on a raw trace made of internal frames, then user
frames, then the runner boundary, the reduction returns one empty seed
line followed by exactly the cleaned user frames and nothing else. -/
theorem claim_C3_amended (internals users : List Str) (r : Str)
    (h1 : internals ≠ []) (_h2 : users ≠ [])
    (hint : ∀ l ∈ internals, goContains l pkgPath = true)
    (huser : ∀ l ∈ users, goContains l pkgPath = false
      ∧ goStartsWith (goTrimSpace l) runnerMark = false)
    (hr1 : goContains r pkgPath = false)
    (hr2 : goStartsWith (goTrimSpace r) runnerMark = true) :
    reduceTrace (internals ++ users ++ [r]) = [] :: List.map clean users :=
  reduce_structured internals users r h1 hint huser hr1 hr2

/-- Witness for the amended claim C3 at a concrete structured trace. -/
theorem claim_C3_witness :
    reduceTrace ([str "github.com/sridharv/fail.IfErr(0xa)"]
        ++ [str "main.TestA(0xb)", str "\t/go/a_test.go:7 +0x1f"]
        ++ [str "testing.tRunner(0xc)"])
      = [] :: List.map clean [str "main.TestA(0xb)", str "\t/go/a_test.go:7 +0x1f"] :=
  claim_C3_amended [str "github.com/sridharv/fail.IfErr(0xa)"]
    [str "main.TestA(0xb)", str "\t/go/a_test.go:7 +0x1f"] (str "testing.tRunner(0xc)")
    (by decide) (by decide) (by decide) (by decide) (by decide) (by decide)

/-- Claim C4: on catching a failure signal, the reporter gets the original
values, then the joined reduced trace, then the queued notes in the order
the secondary raises executed. -/
theorem claim_C4 (f a1 a2 : List Val) (stack : List Str) (s : FState)
    (h : s.failing = true) :
    (Using (some (PanicVal.fail f)) stack s).1
      = UsingResult.report (f ++ [Val.vstr (goJoin (reduceTrace stack) nlStr)] ++ s.queue)
    ∧ (Using (some (PanicVal.fail f)) stack ((Now a2 ((Now a1 s).2)).2)).1
      = UsingResult.report (f ++ [Val.vstr (goJoin (reduceTrace stack) nlStr)]
          ++ (s.queue ++ [Val.vstr (mkNote a1), Val.vstr (mkNote a2)])) := by
  constructor
  · rfl
  · have h1 : (Now a1 s).2 = ⟨true, s.queue ++ [Val.vstr (mkNote a1)]⟩ := by
      simp [Now, h, Message, enqueue, mkNote]
    have h2 : (Now a2 ((Now a1 s).2)).2
        = ⟨true, (s.queue ++ [Val.vstr (mkNote a1)]) ++ [Val.vstr (mkNote a2)]⟩ := by
      rw [h1]
      simp [Now, Message, enqueue, mkNote]
    rw [h2]
    simp [Using, List.append_assoc]

/-- Witness for claim C4: a primary failure and two secondary raises. -/
theorem claim_C4_witness :
    (Using (some (PanicVal.fail [Val.vstr (str "first")])) [] ⟨true, []⟩).1
      = UsingResult.report ([Val.vstr (str "first")]
          ++ [Val.vstr (goJoin (reduceTrace []) nlStr)] ++ [])
    ∧ (Using (some (PanicVal.fail [Val.vstr (str "first")])) []
          ((Now [Val.vstr (str "b")] ((Now [Val.vstr (str "a")] ⟨true, []⟩).2)).2)).1
      = UsingResult.report ([Val.vstr (str "first")]
          ++ [Val.vstr (goJoin (reduceTrace []) nlStr)]
          ++ ([] ++ [Val.vstr (mkNote [Val.vstr (str "a")]),
              Val.vstr (mkNote [Val.vstr (str "b")])])) :=
  claim_C4 [Val.vstr (str "first")] [Val.vstr (str "a")] [Val.vstr (str "b")] [] ⟨true, []⟩ rfl

/-- Claim C5: a recovered value that is not a failure signal is rethrown
unchanged, with no report and no change to the failure state. -/
theorem claim_C5 (v : Val) (stack : List Str) (s : FState) :
    Using (some (PanicVal.foreign v)) stack s
      = (UsingResult.rethrow (PanicVal.foreign v), s) := rfl

/-- Claim C6: the condition check of the earlier revision raises exactly
when the condition is false, and under its guard the reporter receives the
three values followed by the trace string. -/
theorem claim_C6 (args : List Val) (stack : List Str) :
    IfNot true args = none
    ∧ IfNot false args = some (PanicVal.fail args)
    ∧ Using0 (IfNot false [Val.vstr (str "x"), Val.vstr (str " != "), Val.vstr (str "y")]) stack
      = UsingResult.report [Val.vstr (str "x"), Val.vstr (str " != "), Val.vstr (str "y"),
          Val.vstr (goJoin (squash0 stack) nlStr)] :=
  ⟨rfl, rfl, rfl⟩

/-- Claim C7: the guard applies the reduction pass at most four times (one
initial pass plus up to three repeats) and stops as soon as a pass reports
that it stripped nothing. -/
theorem claim_C7 (f : List Val) (stack t : List Str) (s : FState) (n : Nat) :
    (Using (some (PanicVal.fail f)) stack s).1
      = UsingResult.report (f ++ [Val.vstr (goJoin (squashIter 4 stack) nlStr)] ++ s.queue)
    ∧ 1 ≤ squashCount 4 stack
    ∧ squashCount 4 stack ≤ 4
    ∧ squashIter (n + 1) t
      = (if (squash t).2 then squashIter n (squash t).1 else (squash t).1) :=
  ⟨rfl, squashCount_pos 3 stack, squashCount_le 4 stack, rfl⟩

/-- Claim C8: a pass on a trace with no internal frames returns the input
unchanged and reports false, and the full reduction is the identity
there. -/
theorem claim_C8 (t : List Str) (h : ∀ l ∈ t, goContains l pkgPath = false) :
    squash t = (t, false) ∧ reduceTrace t = t := by
  have hs := squash_id t h
  exact ⟨hs, squashIter_stop 3 t hs⟩

/-- Witness for claim C8 at a concrete fully-reduced trace. -/
theorem claim_C8_witness :
    squash [str "main.TestB(0x1)", str "\t/go/b_test.go:9 +0x2"]
      = ([str "main.TestB(0x1)", str "\t/go/b_test.go:9 +0x2"], false)
    ∧ reduceTrace [str "main.TestB(0x1)", str "\t/go/b_test.go:9 +0x2"]
      = [str "main.TestB(0x1)", str "\t/go/b_test.go:9 +0x2"] :=
  claim_C8 [str "main.TestB(0x1)", str "\t/go/b_test.go:9 +0x2"] (by decide)

/-- In every reachable state, a clear failing flag means an empty queue. -/
theorem reachable_queue_nil : ∀ (s : FState), Reachable s →
    s.failing = false → s.queue = [] := by
  intro s h
  induction h with
  | refl => intro _; rfl
  | tail hab hbc ih =>
    rename_i b c
    cases hbc with
    | message args =>
      intro hc
      simp [Message] at hc
    | now args =>
      intro hc
      cases hbf : b.failing with
      | true => simp [Now, hbf, Message, enqueue] at hc
      | false => simp [Now, hbf, Message] at hc
    | usingStep r stack =>
      cases r with
      | none => exact ih
      | some p =>
        cases p with
        | fail f => intro _; rfl
        | foreign v => exact ih

/-- Claim C9: raising the first failure of an unwind from any reachable
non-failing state leaves the flag true and the queue empty. -/
theorem claim_C9 (args : List Val) (s : FState) (h1 : Reachable s)
    (h2 : s.failing = false) :
    (Message args s).2 = ⟨true, []⟩
    ∧ Now args s = (some (PanicVal.fail args), ⟨true, []⟩) := by
  have hq : s.queue = [] := reachable_queue_nil s h1 h2
  constructor
  · simp [Message, hq]
  · simp [Now, h2, Message, hq]

/-- Witness for claim C9 at the initial state, reachable by reflexivity. -/
theorem claim_C9_witness :
    (Message [Val.vstr (str "boom9")] ⟨false, []⟩).2 = ⟨true, []⟩
    ∧ Now [Val.vstr (str "boom9")] ⟨false, []⟩
      = (some (PanicVal.fail [Val.vstr (str "boom9")]), ⟨true, []⟩) :=
  claim_C9 [Val.vstr (str "boom9")] ⟨false, []⟩ Relation.ReflTransGen.refl rfl

/-- Claim C10: Using resets the failure state only on the branch that
catches a failure signal; the nil and foreign branches leave the state
untouched, so a failing flag set by an uncaught Message survives the
guard. -/
theorem claim_C10 (stack : List Str) (s : FState) (args f : List Val) (v : Val) :
    Using none stack s = (UsingResult.ret, s)
    ∧ (Using (some (PanicVal.foreign v)) stack s).2 = s
    ∧ (Using (some (PanicVal.fail f)) stack s).2 = ⟨false, []⟩
    ∧ (Using none stack (Message args s).2).2 = ⟨true, s.queue⟩ :=
  ⟨rfl, rfl, rfl, rfl⟩

end Fail
